import Mathlib

/-!
Shallow embedding of `src/argh.h` (namespace `argh`, class `parser`):
a command-line argument classifier with flag / parameter / positional
accessors.  Strings are modelled as Lean `String`, the C++ collections as
Lean lists:

* `std::vector<std::wstring>`            → `List String` (in order);
* `std::multiset<std::wstring>` (flags)  → `List String` in insertion
  order; the only consulted operation is `find` = membership;
* `std::multimap<std::wstring,std::wstring>` (params) → association list
  `List (String × String)` in insertion order; `multimap::insert` places
  an equal key after all existing ones and `multimap::find` returns the
  first inserted entry for the key, which an association-list `find?`
  reproduces (ordering between distinct keys is never consulted);
* `std::set<std::wstring>` (registered names) → `List String`, the only
  consulted operation being `count` = membership;
* an `std::wstringstream` result (possibly in a failed state) →
  `Option String`, `none` being the failbit state of `bad_stream()`;
* the `int mode` bitmask → `Nat`, tested with `Nat.land`.
-/

namespace Argh

/-- Mode bit `PREFER_FLAG_FOR_UNREG_OPTION = 1 << 0` from `argh.h`. -/
def PREFER_FLAG_FOR_UNREG_OPTION : Nat := 1

/-- Mode bit `PREFER_PARAM_FOR_UNREG_OPTION = 1 << 1` from `argh.h`. -/
def PREFER_PARAM_FOR_UNREG_OPTION : Nat := 2

/-- Mode bit `NO_SPLIT_ON_EQUALSIGN = 1 << 2` from `argh.h`. -/
def NO_SPLIT_ON_EQUALSIGN : Nat := 4

/-- Mode bit `SINGLE_DASH_IS_MULTIFLAG = 1 << 3` from `argh.h`. -/
def SINGLE_DASH_IS_MULTIFLAG : Nat := 8

/-- Whitespace for the default-locale `isspace`, used by stream
extraction (`operator>>`) when skipping leading whitespace. -/
def isWs (c : Char) : Bool :=
  c == ' ' || c == '\t' || c == '\n' || c == '\x0b' || c == '\x0c' || c == '\r'

/-- Character set accumulated by stage 2 of `std::num_get` extraction in
the "C" locale (ISO C++ [facet.num.get.virtuals]): the atoms
`0123456789abcdefpxABCDEFPX+-` plus the decimal point. -/
def isAtomChar (c : Char) : Bool :=
  c.isDigit || ('a' ≤ c && c ≤ 'f') || ('A' ≤ c && c ≤ 'F') ||
  c == 'p' || c == 'P' || c == 'x' || c == 'X' || c == '+' || c == '-' || c == '.'

/-- Hexadecimal digit test used by the `strtod` hexadecimal-float form. -/
def isHexDigitChar (c : Char) : Bool :=
  c.isDigit || ('a' ≤ c && c ≤ 'f') || ('A' ≤ c && c ≤ 'F')

/-- Drop one optional leading sign character, as in the `strtod` grammar. -/
def dropSign : List Char → List Char
  | [] => []
  | c :: rest => if c == '+' || c == '-' then rest else c :: rest

/-- Match a `strtod` mantissa over digit class `dig`: `dig⁺`,
`dig⁺ '.' dig*` or `'.' dig⁺`.  Returns the remainder after the mantissa
when one is present, `none` otherwise. -/
def matchMantissa (dig : Char → Bool) (l : List Char) : Option (List Char) :=
  let intPart := l.takeWhile dig
  match l.dropWhile dig with
  | '.' :: rest2 =>
      let frac := rest2.takeWhile dig
      if intPart.isEmpty && frac.isEmpty then none else some (rest2.dropWhile dig)
  | rest => if intPart.isEmpty then none else some rest

/-- Match an optional `strtod` exponent `[(e1|e2) sign? digit⁺]` against
the remainder `l` of the field; the exponent digits are always decimal. -/
def matchExponent (e1 e2 : Char) (l : List Char) : Bool :=
  match l with
  | [] => true
  | c :: rest =>
      (c == e1 || c == e2) &&
        (let rest2 := dropSign rest
         !rest2.isEmpty && rest2.all Char.isDigit)

/-- Decide whether `strtod` converts the whole field `l` (C17 7.22.1.3):
an optional sign, then either a decimal mantissa with optional
`e`-exponent, or `0x`/`0X` followed by a hexadecimal mantissa with
optional `p`-exponent.  (`inf`/`nan` spellings never occur because stage
2 of `num_get` cannot accumulate the letters `i`/`n`; out-of-range
magnitudes are not modelled.) -/
def strtodFullMatch (l : List Char) : Bool :=
  let l1 := dropSign l
  match l1 with
  | '0' :: x :: rest =>
      if x == 'x' || x == 'X' then
        match matchMantissa isHexDigitChar rest with
        | some r => matchExponent 'p' 'P' r
        | none => false
      else
        match matchMantissa Char.isDigit l1 with
        | some r => matchExponent 'e' 'E' r
        | none => false
  | _ =>
      match matchMantissa Char.isDigit l1 with
      | some r => matchExponent 'e' 'E' r
      | none => false

/-- Embedding of `parser::is_number` (`argh.h:314-322`): build a stream
on `arg`, extract a `double`, and report that neither `failbit` nor
`badbit` is set.  Per ISO C++ the extraction skips leading whitespace,
accumulates the longest prefix of stage-2 atom characters as the field,
and fails unless `strtod` converts the entire (non-empty) field. -/
def is_number (arg : String) : Bool :=
  let field := (arg.data.dropWhile isWs).takeWhile isAtomChar
  !field.isEmpty && strtodFullMatch field

/-- Embedding of `parser::is_option` (`argh.h:326-333`): a number is
never an option; otherwise the token is an option exactly when its first
character is a dash.  (The source asserts `0 != arg.size()`; on the
empty string we return `false`, matching `head?`.) -/
def is_option (arg : String) : Bool :=
  if is_number arg then false
  else arg.data.head? == some '-'

/-- Embedding of `parser::trim_leading_dashes` (`argh.h:337-342`):
`find_first_not_of('-')` finds the first non-dash; when none exists
(`npos`, including the empty string) the name is returned unchanged,
otherwise the suffix from that position. -/
def trim_leading_dashes (name : String) : String :=
  let rest := name.data.dropWhile (fun c => c == '-')
  if rest.isEmpty then name else String.mk rest

/-- State of an `argh::parser` object (`argh.h:190-197`), restricted to
the members the algorithms read or write. -/
structure parser where
  args_ : List String := []
  params_ : List (String × String) := []
  pos_args_ : List String := []
  flags_ : List String := []
  registeredParams_ : List String := []
  empty_ : String := ""
deriving DecidableEq, Repr

/-- Embedding of `parser::is_param` (`argh.h:354-358`):
`registeredParams_.count(name)` as set membership. -/
def is_param (p : parser) (name : String) : Bool :=
  p.registeredParams_.contains name

/-- What one iteration of the parse loop does: `one ps fs pr` appends
positionals `ps`, flags `fs` and parameters `pr` and advances by one
token; `two fs pr` does the same but also consumes the next token (the
`++i` at `argh.h:292`). -/
inductive StepResult where
  | one : List String → List String → List (String × String) → StepResult
  | two : List String → List (String × String) → StepResult
deriving DecidableEq, Repr

/-- Lookahead tail of the loop body (`argh.h:268-298`): with no next
token, or an option next, `name` becomes a flag; otherwise a registered
(or mode-preferred) `name` consumes the next token as its value, and an
unregistered one becomes a flag.  `preFlags` are the single-character
flags already emitted by the multi-flag block before reaching here. -/
def lookahead (mode : Nat) (reg : List String) (name : String)
    (preFlags : List String) (next? : Option String) : StepResult :=
  match next? with
  | none => .one [] (preFlags ++ [name]) []
  | some next =>
      if is_option next then .one [] (preFlags ++ [name]) []
      else if reg.contains name || mode.land PREFER_PARAM_FOR_UNREG_OPTION != 0 then
        .two preFlags [(name, next)]
      else .one [] (preFlags ++ [name]) []

/-- Body of the parse loop (`argh.h:220-299`) for the token `arg` with
lookahead `next?`, over registered names `reg`:

1. a non-option is a positional (`argh.h:222-226`);
2. otherwise strip leading dashes (`argh.h:228`);
3. unless `NO_SPLIT_ON_EQUALSIGN`, split at the first `=` into a
   parameter (`argh.h:230-238`);
4. with `SINGLE_DASH_IS_MULTIFLAG`, a single-dash unregistered name
   splits into one-character flags, except that a trailing character
   that is itself a registered name is kept back as the parameter name
   for the lookahead step (`argh.h:241-266`);
5. lookahead decides flag vs. parameter (`argh.h:270-298`). -/
def step (mode : Nat) (reg : List String) (arg : String) (next? : Option String) :
    StepResult :=
  if !is_option arg then .one [arg] [] []
  else
    let name := trim_leading_dashes arg
    match (if mode.land NO_SPLIT_ON_EQUALSIGN != 0 then none
           else List.findIdx? (fun c => c == '=') name.data) with
    | some eqPos =>
        .one [] [] [(String.mk (name.data.take eqPos),
                     String.mk (name.data.drop (eqPos + 1)))]
    | none =>
        if arg.length - name.length == 1 &&
            mode.land SINGLE_DASH_IS_MULTIFLAG != 0 && !reg.contains name then
          match name.data.getLast? with
          | some c =>
              if reg.contains (String.mk [c]) then
                lookahead mode reg (String.mk [c])
                  (name.data.dropLast.map (fun ch => String.mk [ch])) next?
              else
                .one [] (name.data.map (fun ch => String.mk [ch])) []
          | none => .one [] [] []
        else lookahead mode reg name [] next?

/-- Append the collections produced by one loop iteration onto the
parser state (the `emplace_back`/`emplace`/`insert` calls of `parse`). -/
def upd (p : parser) (ps fs : List String) (pr : List (String × String)) : parser :=
  { p with
    pos_args_ := p.pos_args_ ++ ps
    flags_ := p.flags_ ++ fs
    params_ := p.params_ ++ pr }

/-- The parse loop of `parser::parse` (`argh.h:220-299`): left to right,
one token of lookahead, advancing by one or two tokens per iteration. -/
def parseLoop (mode : Nat) (p : parser) : List String → parser
  | [] => p
  | [arg] =>
      match step mode p.registeredParams_ arg none with
      | .one ps fs pr => upd p ps fs pr
      | .two fs pr => upd p [] fs pr
  | arg :: next :: rest =>
      match step mode p.registeredParams_ arg (some next) with
      | .one ps fs pr => parseLoop mode (upd p ps fs pr) (next :: rest)
      | .two fs pr => parseLoop mode (upd p [] fs pr) rest

/-- Embedding of `parser::parse(argc, argv, mode)` (`argh.h:212-300`):
`args_` is replaced by the new argument vector (resize + transform),
then the loop appends to the result collections. -/
def parse (p : parser) (args : List String) (mode : Nat) : parser :=
  parseLoop mode { p with args_ := args } args

/-- Embedding of `parser::add_param` (`argh.h:470-474`): insert the
dash-trimmed name into the registered-name set. -/
def add_param (p : parser) (name : String) : parser :=
  let t := trim_leading_dashes name
  if p.registeredParams_.contains t then p
  else { p with registeredParams_ := p.registeredParams_ ++ [t] }

/-- Embedding of `parser::got_flag` (`argh.h:346-350`): membership of
the dash-trimmed name in the flag multiset. -/
def got_flag (p : parser) (name : String) : Bool :=
  p.flags_.contains (trim_leading_dashes name)

/-- Embedding of `parser::operator[](name)` (`argh.h:362-366`). -/
def flag_query (p : parser) (name : String) : Bool :=
  got_flag p name

/-- Embedding of `parser::operator[](init_list)` (`argh.h:370-374`):
`std::any_of` over the alternative names. -/
def flag_query_any (p : parser) (names : List String) : Bool :=
  names.any (fun name => got_flag p name)

/-- Embedding of `parser::operator[](size_t)` (`argh.h:378-384`): the
`ind`-th positional when in range, the shared `empty_` string otherwise. -/
def pos_arg_at (p : parser) (ind : Nat) : String :=
  if ind < p.pos_args_.length then p.pos_args_.getD ind p.empty_ else p.empty_

/-- Embedding of `parser::operator()(size_t)` (`argh.h:444-451`): a
failed stream (`none`) when out of range, a stream on the positional
otherwise. -/
def pos_stream (p : parser) (ind : Nat) : Option String :=
  if p.pos_args_.length ≤ ind then none
  else some (p.pos_args_.getD ind p.empty_)

/-- Embedding of `parser::operator()(size_t, def_val)` (`argh.h:455-466`)
with `defRendered` the text produced by streaming the default out. -/
def pos_stream_def (p : parser) (ind : Nat) (defRendered : String) : Option String :=
  if p.pos_args_.length ≤ ind then some defRendered
  else some (p.pos_args_.getD ind p.empty_)

/-- The `params_.find(trim_leading_dashes(name))` step shared by the
parameter accessors: first inserted entry whose key matches. -/
def paramFind (p : parser) (name : String) : Option String :=
  match List.find? (fun kv => kv.1 == trim_leading_dashes name) p.params_ with
  | some kv => some kv.2
  | none => none

/-- Embedding of `parser::operator()(name)` (`argh.h:388-395`): a stream
on the found value, or `bad_stream()` (`none`). -/
def param_stream (p : parser) (name : String) : Option String :=
  match List.find? (fun kv => kv.1 == trim_leading_dashes name) p.params_ with
  | some kv => some kv.2
  | none => none

/-- Embedding of `parser::operator()(init_list)` (`argh.h:399-409`):
first name in list order that is found wins; otherwise `bad_stream()`. -/
def param_stream_list (p : parser) : List String → Option String
  | [] => none
  | name :: rest =>
      match paramFind p name with
      | some v => some v
      | none => param_stream_list p rest

/-- Embedding of `parser::operator()(name, def_val)` (`argh.h:413-423`)
with `defRendered` the text produced by streaming the default out. -/
def param_stream_def (p : parser) (name : String) (defRendered : String) :
    Option String :=
  match List.find? (fun kv => kv.1 == trim_leading_dashes name) p.params_ with
  | some kv => some kv.2
  | none => some defRendered

/-- Embedding of `parser::operator()(init_list, def_val)`
(`argh.h:428-440`). -/
def param_stream_list_def (p : parser) : List String → String → Option String
  | [], defRendered => some defRendered
  | name :: rest, defRendered =>
      match paramFind p name with
      | some v => some v
      | none => param_stream_list_def p rest defRendered

/-- Decimal value of a digit list, most significant first. -/
def digitsVal (l : List Char) : Nat :=
  l.foldl (fun a c => 10 * a + (c.toNat - 48)) 0

/-- Extraction of an `int` from a stream on `s` (the `>>` step of a
typed `as<int>` read): skip whitespace, accumulate the stage-2 field,
and succeed only when `strtol` (base 10, from `basefield = dec`)
converts the entire non-empty field: an optional sign then decimal
digits.  Out-of-range magnitudes are not modelled. -/
def readInt (s : String) : Option Int :=
  let field := (s.data.dropWhile isWs).takeWhile isAtomChar
  let body := dropSign field
  if body.isEmpty || !body.all Char.isDigit then none
  else
    let n : Nat := digitsVal body
    some (if field.head? == some '-' then -(n : Int) else (n : Int))

/-- Rendering of an `int` default through `ostr << def_val`
(`argh.h:420-421`): decimal text with a leading `-` for negatives. -/
def renderInt (d : Int) : String := toString d

/-- Typed read `as<int>` over a possibly-failed stream: extraction from
a failed stream fails. -/
def streamInt (s : Option String) : Option Int :=
  s.bind readInt

/-- Typed parameter accessor `as<int>(name, def_val)`: the stream
returned by `operator()(name, def_val)` followed by `>> int`. -/
def asIntDef (p : parser) (name : String) (d : Int) : Option Int :=
  streamInt (param_stream_def p name (renderInt d))

/-- Fresh parser object (`parser()` default construction). -/
def pEmpty : parser := {}

/-!  Helper lemmas. -/

/-- Induction on token lists matching the recursion pattern of
`parseLoop` (consume one or two tokens per iteration). -/
theorem twoStepInduction {motive : List String → Prop}
    (h0 : motive []) (h1 : ∀ a, motive [a])
    (h2 : ∀ a b l, motive (b :: l) → motive l → motive (a :: b :: l)) :
    ∀ l, motive l
  | [] => h0
  | [a] => h1 a
  | a :: b :: l =>
      h2 a b l (twoStepInduction h0 h1 h2 (b :: l)) (twoStepInduction h0 h1 h2 l)

/-- Head of a non-trivial `dropWhile` residue falsifies the predicate. -/
theorem dropWhile_head_false {p : Char → Bool} {l t : List Char} {c : Char}
    (h : l.dropWhile p = c :: t) : p c = false := by
  induction l with
  | nil => simp at h
  | cons a l ih =>
      rw [List.dropWhile_cons] at h
      by_cases hp : p a = true
      · exact ih (by simpa [hp] using h)
      · have hh : a = c ∧ l = t := by simpa [hp] using h
        rw [← hh.1]
        simpa using hp

/-- Trimming leading dashes is idempotent. -/
theorem trim_leading_dashes_idem (name : String) :
    trim_leading_dashes (trim_leading_dashes name) = trim_leading_dashes name := by
  cases h : name.data.dropWhile (fun c => c == '-') with
  | nil =>
      have h1 : trim_leading_dashes name = name := by
        unfold trim_leading_dashes
        simp [h]
      rw [h1]
      unfold trim_leading_dashes
      simp [h]
  | cons c t =>
      have hc : (c == '-') = false := dropWhile_head_false (p := fun c => c == '-') h
      have h1 : trim_leading_dashes name = String.mk (c :: t) := by
        unfold trim_leading_dashes
        simp [h]
      rw [h1]
      unfold trim_leading_dashes
      simp [List.dropWhile_cons, hc]

/-- Trimming a non-empty token yields a non-empty name. -/
theorem trim_leading_dashes_ne_empty {name : String} (h : name.data ≠ []) :
    (trim_leading_dashes name).data ≠ [] := by
  unfold trim_leading_dashes
  cases hd : name.data.dropWhile (fun c => c == '-') with
  | nil => simpa using h
  | cons c t => simp [hd]

/-- The `upd` step never touches the registered-name set. -/
theorem upd_registeredParams (p : parser) (ps fs : List String)
    (pr : List (String × String)) :
    (upd p ps fs pr).registeredParams_ = p.registeredParams_ := rfl

/-- Lookahead with no next token always yields a flag. -/
theorem lookahead_none (mode : Nat) (reg : List String) (name : String)
    (preFlags : List String) :
    lookahead mode reg name preFlags none = .one [] (preFlags ++ [name]) [] := rfl

/-- Lookahead at an option token behaves like end of input. -/
theorem lookahead_some_option (mode : Nat) (reg : List String) (name : String)
    (preFlags : List String) {next : String} (h : is_option next = true) :
    lookahead mode reg name preFlags (some next) =
      lookahead mode reg name preFlags none := by
  simp [lookahead, h]

/-- A non-option token is classified as a positional by the loop body. -/
theorem step_not_option (mode : Nat) (reg : List String) {arg : String}
    (next? : Option String) (h : is_option arg = false) :
    step mode reg arg next? = .one [arg] [] [] := by
  simp [step, h]

/-- When the next token is an option, the loop body treats the current
token exactly as if it were the last one. -/
theorem step_some_option (mode : Nat) (reg : List String) (arg : String)
    {next : String} (h : is_option next = true) :
    step mode reg arg (some next) = step mode reg arg none := by
  have hl : ∀ n pre, lookahead mode reg n pre (some next) =
      lookahead mode reg n pre none := fun n pre => lookahead_some_option _ _ _ _ h
  unfold step
  cases h0 : is_option arg with
  | false => simp
  | true =>
      simp only [h0, Bool.not_true]
      cases h2 : (if mode.land NO_SPLIT_ON_EQUALSIGN != 0 then none
          else List.findIdx? (fun c => c == '=') (trim_leading_dashes arg).data) with
      | some eqPos => simp
      | none =>
          simp only
          cases h3 : (arg.length - (trim_leading_dashes arg).length == 1 &&
              mode.land SINGLE_DASH_IS_MULTIFLAG != 0 &&
              !reg.contains (trim_leading_dashes arg)) with
          | false => simp [h3, hl]
          | true =>
              simp only [h3]
              cases h4 : (trim_leading_dashes arg).data.getLast? with
              | none => simp [h4]
              | some c =>
                  by_cases h5 : String.mk [c] ∈ reg
                  · simp [h4, h5, hl]
                  · simp [h4, h5]

/-- With no lookahead token the loop body never consumes a value. -/
theorem step_none_ne_two (mode : Nat) (reg : List String) (arg : String)
    (fs : List String) (pr : List (String × String)) :
    step mode reg arg none ≠ .two fs pr := by
  unfold step
  cases h0 : is_option arg with
  | false => simp
  | true =>
      simp only [h0, Bool.not_true]
      cases h2 : (if mode.land NO_SPLIT_ON_EQUALSIGN != 0 then none
          else List.findIdx? (fun c => c == '=') (trim_leading_dashes arg).data) with
      | some eqPos => simp
      | none =>
          simp only
          cases h3 : (arg.length - (trim_leading_dashes arg).length == 1 &&
              mode.land SINGLE_DASH_IS_MULTIFLAG != 0 &&
              !reg.contains (trim_leading_dashes arg)) with
          | false => simp [h3, lookahead]
          | true =>
              simp only [h3]
              cases h4 : (trim_leading_dashes arg).data.getLast? with
              | none => simp [h4]
              | some c =>
                  by_cases h5 : String.mk [c] ∈ reg
                  · simp [h4, h5, lookahead]
                  · simp [h4, h5]

/-- At the end of the input, an option token that the equals-split does
not claim produces one or more flags and nothing else. -/
theorem step_last_option (mode : Nat) (reg : List String) {last : String}
    (hopt : is_option last = true)
    (hne : (mode.land NO_SPLIT_ON_EQUALSIGN != 0) = true ∨
           List.findIdx? (fun c => c == '=') (trim_leading_dashes last).data = none) :
    ∃ fs, fs ≠ [] ∧ step mode reg last none = .one [] fs [] := by
  have hnone : (if mode.land NO_SPLIT_ON_EQUALSIGN != 0 then none
      else List.findIdx? (fun c => c == '=') (trim_leading_dashes last).data) =
      (none : Option Nat) := by
    rcases hne with h | h
    · simp [h]
    · cases hsp : (mode.land NO_SPLIT_ON_EQUALSIGN != 0) <;> simp [h]
  have hlast_ne : last.data ≠ [] := by
    intro hnil
    unfold is_option at hopt
    rw [hnil] at hopt
    simp at hopt
  have hname_ne : (trim_leading_dashes last).data ≠ [] :=
    trim_leading_dashes_ne_empty hlast_ne
  unfold step
  simp only [hopt, Bool.not_true, Bool.false_eq_true, if_false, hnone]
  cases h3 : (last.length - (trim_leading_dashes last).length == 1 &&
      mode.land SINGLE_DASH_IS_MULTIFLAG != 0 &&
      !reg.contains (trim_leading_dashes last)) with
  | false => exact ⟨[trim_leading_dashes last], by simp, by simp [lookahead]⟩
  | true =>
      cases h4 : (trim_leading_dashes last).data.getLast? with
      | none =>
          exact absurd (List.getLast?_eq_none_iff.mp h4) hname_ne
      | some c =>
          by_cases h5 : String.mk [c] ∈ reg
          · exact ⟨(trim_leading_dashes last).data.dropLast.map
                (fun ch => String.mk [ch]) ++ [String.mk [c]],
              by simp, by simp [h5, lookahead]⟩
          · exact ⟨(trim_leading_dashes last).data.map (fun ch => String.mk [ch]),
              by simp [hname_ne], by simp [h5]⟩

/-- If the loop body reports a positional, it is exactly the current
token and that token is not an option. -/
theorem lookahead_one_pos {mode : Nat} {reg : List String} {name : String}
    {preFlags : List String} {next? : Option String} {ps fs : List String}
    {pr : List (String × String)}
    (h : lookahead mode reg name preFlags next? = .one ps fs pr) : ps = [] := by
  cases next? with
  | none =>
      simp only [lookahead] at h
      cases h
      rfl
  | some next =>
      simp only [lookahead] at h
      repeat' split at h
      all_goals first
        | (cases h; rfl)
        | cases h

/-- The only way the loop body produces a positional is the non-option
branch, and then the positional is the token itself. -/
theorem step_one_pos {mode : Nat} {reg : List String} {arg : String}
    {next? : Option String} {ps fs : List String} {pr : List (String × String)}
    (h : step mode reg arg next? = .one ps fs pr) :
    ps = [] ∨ (ps = [arg] ∧ is_option arg = false) := by
  by_cases h0 : is_option arg = true
  · left
    unfold step at h
    rw [h0] at h
    simp only [Bool.not_true, Bool.false_eq_true, if_false] at h
    repeat' split at h
    all_goals first
      | exact lookahead_one_pos h
      | (cases h; rfl)
  · have h0f : is_option arg = false := by simpa using h0
    rw [step_not_option mode reg next? h0f] at h
    cases h
    exact Or.inr ⟨rfl, h0f⟩

/-- Parsing never mutates the registered-parameter-name set. -/
theorem parseLoop_registeredParams (mode : Nat) :
    ∀ (l : List String) (p : parser),
      (parseLoop mode p l).registeredParams_ = p.registeredParams_ := by
  intro l
  induction l using twoStepInduction with
  | h0 => intro p; rfl
  | h1 a =>
      intro p
      simp only [parseLoop]
      cases h : step mode p.registeredParams_ a none with
      | one ps fs pr => rfl
      | two fs pr => rfl
  | h2 a b l ih1 ih2 =>
      intro p
      simp only [parseLoop]
      cases h : step mode p.registeredParams_ a (some b) with
      | one ps fs pr => rw [ih1]; rfl
      | two fs pr => rw [ih2]; rfl

/-- Appending a final option token (with `fs` the flags its processing
produces at end of input) only appends `fs` to the flags of the parse of
the remaining tokens: the previous tokens are classified exactly as they
are without it, because an option lookahead and an end-of-input lookahead
coincide. -/
theorem parseLoop_concat (mode : Nat) {last : String} (fs : List String)
    (hopt : is_option last = true) :
    ∀ (l : List String) (p : parser),
      step mode p.registeredParams_ last none = .one [] fs [] →
      parseLoop mode p (l ++ [last]) = upd (parseLoop mode p l) [] fs [] := by
  intro l
  induction l using twoStepInduction with
  | h0 =>
      intro p hstep
      simp only [List.nil_append, parseLoop, hstep]
  | h1 a =>
      intro p hstep
      simp only [List.cons_append, List.nil_append, parseLoop]
      rw [step_some_option mode p.registeredParams_ a hopt]
      cases h : step mode p.registeredParams_ a none with
      | one ps fs2 pr =>
          simp only [parseLoop]
          rw [upd_registeredParams, hstep]
      | two fs2 pr => exact absurd h (step_none_ne_two mode p.registeredParams_ a fs2 pr)
  | h2 a b l ih1 ih2 =>
      intro p hstep
      simp only [List.cons_append, parseLoop]
      cases h : step mode p.registeredParams_ a (some b) with
      | one ps fs2 pr =>
          have ih := ih1 (upd p ps fs2 pr) hstep
          simpa only [List.cons_append] using ih
      | two fs2 pr => exact ih2 (upd p [] fs2 pr) hstep

/-- The positionals appended by a parse form an order-preserving
subsequence of the input made of non-option tokens. -/
theorem parseLoop_pos_sublist (mode : Nat) :
    ∀ (l : List String) (p : parser),
      ∃ new, (parseLoop mode p l).pos_args_ = p.pos_args_ ++ new ∧
        new.Sublist l ∧ ∀ t ∈ new, is_option t = false := by
  intro l
  induction l using twoStepInduction with
  | h0 => intro p; exact ⟨[], by simp [parseLoop], by simp, by simp⟩
  | h1 a =>
      intro p
      simp only [parseLoop]
      cases h : step mode p.registeredParams_ a none with
      | one ps fs pr =>
          rcases step_one_pos h with hps | ⟨hps, ho⟩
          · exact ⟨[], by simp [upd, hps], by simp, by simp⟩
          · refine ⟨[a], by simp [upd, hps], by simp, ?_⟩
            intro t ht
            rcases List.mem_singleton.mp ht with rfl
            exact ho
      | two fs pr => exact ⟨[], by simp [upd], by simp, by simp⟩
  | h2 a b l ih1 ih2 =>
      intro p
      simp only [parseLoop]
      cases h : step mode p.registeredParams_ a (some b) with
      | one ps fs pr =>
          obtain ⟨new, hpos, hsub, hno⟩ := ih1 (upd p ps fs pr)
          rcases step_one_pos h with hps | ⟨hps, ho⟩
          · subst hps
            exact ⟨new, by simpa [upd] using hpos, hsub.cons _, hno⟩
          · subst hps
            refine ⟨a :: new, ?_, hsub.cons₂ _, ?_⟩
            · rw [hpos]; simp [upd]
            · intro t ht
              rcases List.mem_cons.mp ht with rfl | hmem
              · exact ho
              · exact hno t hmem
      | two fs pr =>
          obtain ⟨new, hpos, hsub, hno⟩ := ih2 (upd p [] fs pr)
          exact ⟨new, by simpa [upd] using hpos, (hsub.cons _).cons _, hno⟩

/-!  Claim theorems. -/

/-- C1: a token is classified as positional exactly when it does not
begin with a dash or parses as a signed floating-point number; every
dash-led token that fails to parse as a number is an option, including
the malformed near-numeric `-1a` and the bare `-`. -/
theorem claim1_positional_classification :
    (∀ arg : String, is_option arg = true ↔
        (arg.data.head? = some '-' ∧ is_number arg = false)) ∧
    (∀ (mode : Nat) (p : parser) (arg : String) (rest : List String),
        is_option arg = false →
        parseLoop mode p (arg :: rest) =
          parseLoop mode { p with pos_args_ := p.pos_args_ ++ [arg] } rest) ∧
    is_option "-1a" = true ∧ is_option "-" = true ∧
    is_option "-3.5" = false ∧ is_number "-3.5" = true := by
  refine ⟨?_, ?_, by decide, by decide, by decide, by decide⟩
  · intro arg
    unfold is_option
    cases hn : is_number arg with
    | true => simp [hn]
    | false => simp [hn]
  · intro mode p arg rest h
    have hupd : upd p [arg] [] [] = { p with pos_args_ := p.pos_args_ ++ [arg] } := by
      simp [upd]
    cases rest with
    | nil =>
        simp only [parseLoop, step_not_option mode p.registeredParams_ none h]
        rw [hupd]
    | cons b l =>
        simp only [parseLoop, step_not_option mode p.registeredParams_ (some b) h]
        rw [hupd]

/-- C1 witness: the non-option token `x` is classified as a positional. -/
theorem claim1_witness :
    is_option "x" = false ∧
    parseLoop 1 pEmpty ["x"] =
      parseLoop 1 { pEmpty with pos_args_ := pEmpty.pos_args_ ++ ["x"] } [] :=
  ⟨by decide, claim1_positional_classification.2.1 1 pEmpty "x" [] (by decide)⟩

/-- C2 counterexample: `["--key=val"]` under the default mode has an
option as its final (and only) token, yet parsing records it as the
parameter `key → val` and as no flag at all. -/
theorem claim2_counterexample :
    is_option "--key=val" = true ∧
    (parse pEmpty ["--key=val"] PREFER_FLAG_FOR_UNREG_OPTION).params_ =
      [("key", "val")] ∧
    (parse pEmpty ["--key=val"] PREFER_FLAG_FOR_UNREG_OPTION).flags_ = [] := by
  refine ⟨by decide, by decide, by decide⟩

/-- C2 (amended): if the final token is an option and the equals-sign
split does not claim it (`NO_SPLIT_ON_EQUALSIGN` set, or its trimmed
name has no `=`), then parsing records it only as one or more flags —
its presence changes no parameter and no positional, for every mode,
registration set and preceding tokens. -/
theorem claim2_final_option_is_flag (mode : Nat) (p : parser) (xs : List String)
    (last : String) (hopt : is_option last = true)
    (hsplit : (mode.land NO_SPLIT_ON_EQUALSIGN != 0) = true ∨
        List.findIdx? (fun c => c == '=') (trim_leading_dashes last).data = none) :
    ∃ fs, fs ≠ [] ∧
      (parseLoop mode p (xs ++ [last])).flags_ =
        (parseLoop mode p xs).flags_ ++ fs ∧
      (parseLoop mode p (xs ++ [last])).params_ = (parseLoop mode p xs).params_ ∧
      (parseLoop mode p (xs ++ [last])).pos_args_ =
        (parseLoop mode p xs).pos_args_ := by
  obtain ⟨fs, hne, hstep⟩ := step_last_option mode p.registeredParams_ hopt hsplit
  have h := parseLoop_concat mode fs hopt xs p hstep
  exact ⟨fs, hne, by rw [h]; rfl,
    by rw [h]; simp [upd], by rw [h]; simp [upd]⟩

/-- C2 witness: the trailing option `-x` after a positional contributes
flags only. -/
theorem claim2_witness :
    is_option "-x" = true ∧
    ∃ fs, fs ≠ [] ∧
      (parseLoop 1 pEmpty (["pos"] ++ ["-x"])).flags_ =
        (parseLoop 1 pEmpty ["pos"]).flags_ ++ fs ∧
      (parseLoop 1 pEmpty (["pos"] ++ ["-x"])).params_ =
        (parseLoop 1 pEmpty ["pos"]).params_ ∧
      (parseLoop 1 pEmpty (["pos"] ++ ["-x"])).pos_args_ =
        (parseLoop 1 pEmpty ["pos"]).pos_args_ :=
  ⟨by decide, claim2_final_option_is_flag 1 pEmpty ["pos"] "-x" (by decide) (by decide)⟩

/-- C3: `["-abc"]` with `SINGLE_DASH_IS_MULTIFLAG` and nothing
registered yields exactly the flags `a`, `b`, `c` and nothing else, and
with only `c` registered as a parameter name it yields the flags `a`,
`b` and (no value being available) `c`, again with no parameters or
positionals. -/
theorem claim3_multiflag_decomposition :
    (parse pEmpty ["-abc"]
        (Nat.lor PREFER_FLAG_FOR_UNREG_OPTION SINGLE_DASH_IS_MULTIFLAG)).flags_ =
      ["a", "b", "c"] ∧
    (parse pEmpty ["-abc"]
        (Nat.lor PREFER_FLAG_FOR_UNREG_OPTION SINGLE_DASH_IS_MULTIFLAG)).params_ = [] ∧
    (parse pEmpty ["-abc"]
        (Nat.lor PREFER_FLAG_FOR_UNREG_OPTION SINGLE_DASH_IS_MULTIFLAG)).pos_args_ = [] ∧
    (parse { registeredParams_ := ["c"] } ["-abc"]
        (Nat.lor PREFER_FLAG_FOR_UNREG_OPTION SINGLE_DASH_IS_MULTIFLAG)).flags_ =
      ["a", "b", "c"] ∧
    (parse { registeredParams_ := ["c"] } ["-abc"]
        (Nat.lor PREFER_FLAG_FOR_UNREG_OPTION SINGLE_DASH_IS_MULTIFLAG)).params_ = [] ∧
    (parse { registeredParams_ := ["c"] } ["-abc"]
        (Nat.lor PREFER_FLAG_FOR_UNREG_OPTION SINGLE_DASH_IS_MULTIFLAG)).pos_args_ =
      [] := by
  decide

/-- C4: `["--key=val"]` yields the parameter `key → val` under the
default mode; with `NO_SPLIT_ON_EQUALSIGN` no split happens and the
literal name `key=val` goes through the flag/parameter lookahead logic
(alone it becomes a flag; registered and followed by a value it becomes
a parameter). -/
theorem claim4_equals_split :
    (parse pEmpty ["--key=val"] PREFER_FLAG_FOR_UNREG_OPTION).params_ =
      [("key", "val")] ∧
    (parse pEmpty ["--key=val"] PREFER_FLAG_FOR_UNREG_OPTION).flags_ = [] ∧
    (parse pEmpty ["--key=val"] PREFER_FLAG_FOR_UNREG_OPTION).pos_args_ = [] ∧
    (parse pEmpty ["--key=val"]
        (Nat.lor PREFER_FLAG_FOR_UNREG_OPTION NO_SPLIT_ON_EQUALSIGN)).flags_ =
      ["key=val"] ∧
    (parse pEmpty ["--key=val"]
        (Nat.lor PREFER_FLAG_FOR_UNREG_OPTION NO_SPLIT_ON_EQUALSIGN)).params_ = [] ∧
    (parse { registeredParams_ := ["key=val"] } ["--key=val", "v"]
        (Nat.lor PREFER_FLAG_FOR_UNREG_OPTION NO_SPLIT_ON_EQUALSIGN)).params_ =
      [("key=val", "v")] := by
  decide

/-- C5: the typed parameter accessor with a default returns the default
rendered to text and re-parsed when the name is absent (so
`as<int>("missing-key", 42)` yields `42`), and the parsed stored value,
ignoring the default, when the name is present. -/
theorem claim5_default_fallback :
    (∀ (p : parser) (name : String) (d : Int),
        paramFind p name = none → asIntDef p name d = readInt (renderInt d)) ∧
    (∀ (p : parser) (name : String) (d : Int) (v : String),
        paramFind p name = some v →
          asIntDef p name d = readInt v ∧
          ∀ d2 : Int, asIntDef p name d = asIntDef p name d2) ∧
    asIntDef pEmpty "missing-key" 42 = some 42 := by
  refine ⟨?_, ?_, by decide⟩
  · intro p name d h
    unfold paramFind at h
    unfold asIntDef streamInt param_stream_def
    cases hf : List.find? (fun kv => kv.1 == trim_leading_dashes name) p.params_ with
    | some kv => rw [hf] at h; simp at h
    | none => rfl
  · intro p name d v h
    unfold paramFind at h
    cases hf : List.find? (fun kv => kv.1 == trim_leading_dashes name) p.params_ with
    | none => rw [hf] at h; simp at h
    | some kv =>
        rw [hf] at h
        have hv : kv.2 = v := by simpa using h
        constructor
        · unfold asIntDef streamInt param_stream_def
          rw [hf]
          simp [hv]
        · intro d2
          unfold asIntDef streamInt param_stream_def
          rw [hf]

/-- C5 witness: the default `42` is used when `missing-key` is absent,
and a stored `"7"` is parsed while the default is ignored. -/
theorem claim5_witness :
    paramFind pEmpty "missing-key" = none ∧
    asIntDef pEmpty "missing-key" 42 = readInt (renderInt 42) ∧
    paramFind { params_ := [("present", "7")] } "present" = some "7" ∧
    asIntDef { params_ := [("present", "7")] } "present" 0 = readInt "7" :=
  ⟨by decide,
   claim5_default_fallback.1 pEmpty "missing-key" 42 (by decide),
   by decide,
   (claim5_default_fallback.2.1 { params_ := [("present", "7")] } "present" 0 "7"
      (by decide)).1⟩

/-- C6: a missed lookup never fails hard: an out-of-range positional
index yields the empty sentinel from `operator[]` and a failed stream
from `operator()`, and a missing parameter name yields a failed
stream. -/
theorem claim6_lookup_miss_is_silent (p : parser) (ind : Nat) (name : String) :
    (p.pos_args_.length ≤ ind →
        pos_arg_at p ind = p.empty_ ∧ pos_stream p ind = none) ∧
    (paramFind p name = none → param_stream p name = none) := by
  constructor
  · intro h
    constructor
    · unfold pos_arg_at
      rw [if_neg (by omega)]
    · unfold pos_stream
      rw [if_pos h]
  · intro h
    unfold paramFind at h
    unfold param_stream
    cases hf : List.find? (fun kv => kv.1 == trim_leading_dashes name) p.params_ with
    | some kv => rw [hf] at h; simp at h
    | none => rfl

/-- C6 witness: a fresh parser answers out-of-range and missing-name
lookups with the sentinel and failed streams. -/
theorem claim6_witness :
    pos_arg_at pEmpty 5 = pEmpty.empty_ ∧ pos_stream pEmpty 5 = none ∧
    param_stream pEmpty "absent" = none :=
  ⟨((claim6_lookup_miss_is_silent pEmpty 5 "absent").1 (by decide)).1,
   ((claim6_lookup_miss_is_silent pEmpty 5 "absent").1 (by decide)).2,
   (claim6_lookup_miss_is_silent pEmpty 5 "absent").2 (by decide)⟩

/-- C7: the alternative-names parameter accessor returns the value of
the first name in the supplied list (list order) that is present, and
when none is present returns the rendered default (when supplied) or a
failed stream. -/
theorem claim7_first_name_wins (p : parser) :
    (∀ (pre post : List String) (n v d : String),
        (∀ m ∈ pre, paramFind p m = none) → paramFind p n = some v →
        param_stream_list p (pre ++ n :: post) = some v ∧
        param_stream_list_def p (pre ++ n :: post) d = some v) ∧
    (∀ (names : List String) (d : String),
        (∀ m ∈ names, paramFind p m = none) →
        param_stream_list p names = none ∧
        param_stream_list_def p names d = some d) := by
  constructor
  · intro pre post n v d
    induction pre with
    | nil =>
        intro hpre hn
        simp only [List.nil_append, param_stream_list, param_stream_list_def, hn]
        exact ⟨trivial, trivial⟩
    | cons m pre ih =>
        intro hpre hn
        have hm : paramFind p m = none := hpre m (by simp)
        have hrest : ∀ m2 ∈ pre, paramFind p m2 = none :=
          fun m2 h2 => hpre m2 (by simp [h2])
        simp only [List.cons_append, param_stream_list, param_stream_list_def, hm]
        exact ih hrest hn
  · intro names d
    induction names with
    | nil =>
        intro hnone
        exact ⟨rfl, rfl⟩
    | cons m names ih =>
        intro hnone
        have hm : paramFind p m = none := hnone m (by simp)
        have hrest : ∀ m2 ∈ names, paramFind p m2 = none :=
          fun m2 h2 => hnone m2 (by simp [h2])
        simp only [param_stream_list, param_stream_list_def, hm]
        exact ih hrest

/-- C7 witness: with only `b → 2` stored, the list `["a", "b", "x"]`
resolves to `2`, and an all-absent list falls back to the default. -/
theorem claim7_witness :
    param_stream_list { params_ := [("b", "2")] } (["a"] ++ "b" :: ["x"]) =
      some "2" ∧
    param_stream_list_def { params_ := [("b", "2")] } (["a"] ++ "b" :: ["x"]) "9" =
      some "2" ∧
    param_stream_list pEmpty ["a", "b"] = none ∧
    param_stream_list_def pEmpty ["a", "b"] "9" = some "9" :=
  ⟨((claim7_first_name_wins { params_ := [("b", "2")] }).1 ["a"] ["x"] "b" "2" "9"
      (by decide) (by decide)).1,
   ((claim7_first_name_wins { params_ := [("b", "2")] }).1 ["a"] ["x"] "b" "2" "9"
      (by decide) (by decide)).2,
   ((claim7_first_name_wins pEmpty).2 ["a", "b"] "9" (by decide)).1,
   ((claim7_first_name_wins pEmpty).2 ["a", "b"] "9" (by decide)).2⟩

/-- C8 counterexample: the non-option token `v` is consumed as the
value of the registered parameter `k` and therefore does not appear in
the positional output, refuting "every non-option token appears in the
positional output". -/
theorem claim8_counterexample :
    is_option "v" = false ∧
    (parse { registeredParams_ := ["k"] } ["--k", "v"]
        PREFER_FLAG_FOR_UNREG_OPTION).pos_args_ = [] ∧
    (parse { registeredParams_ := ["k"] } ["--k", "v"]
        PREFER_FLAG_FOR_UNREG_OPTION).params_ = [("k", "v")] := by
  decide

/-- C8 (amended): every token classified as positional during the scan
(i.e. not an option and not consumed as a preceding parameter's value)
appears in the positional output, which is an order-preserving
subsequence of the input consisting of non-option tokens. -/
theorem claim8_positional_order (p : parser) (args : List String) (mode : Nat) :
    ∃ new, (parse p args mode).pos_args_ = p.pos_args_ ++ new ∧
      new.Sublist args ∧ ∀ t ∈ new, is_option t = false := by
  obtain ⟨new, h1, h2, h3⟩ :=
    parseLoop_pos_sublist mode args { p with args_ := args }
  exact ⟨new, h1, h2, h3⟩

/-- C9: parsing never mutates the registered-parameter-name set; the
parse loop only consults it. -/
theorem claim9_registered_names_frame (p : parser) (args : List String)
    (mode : Nat) :
    (parse p args mode).registeredParams_ = p.registeredParams_ :=
  parseLoop_registeredParams mode args { p with args_ := args }

/-- C10: accessor queries strip leading dashes before lookup, so the
flag test and the parameter accessors answer identically for a name
given with or without its dashes (e.g. `--verbose` versus `verbose`). -/
theorem claim10_dash_insensitive_queries (p : parser) (name defRendered : String) :
    got_flag p name = got_flag p (trim_leading_dashes name) ∧
    flag_query p name = flag_query p (trim_leading_dashes name) ∧
    param_stream p name = param_stream p (trim_leading_dashes name) ∧
    param_stream_def p name defRendered =
      param_stream_def p (trim_leading_dashes name) defRendered ∧
    flag_query p "--verbose" = flag_query p "verbose" := by
  refine ⟨?_, ?_, ?_, ?_, ?_⟩
  · unfold got_flag
    rw [trim_leading_dashes_idem]
  · unfold flag_query got_flag
    rw [trim_leading_dashes_idem]
  · unfold param_stream
    rw [trim_leading_dashes_idem]
  · unfold param_stream_def
    rw [trim_leading_dashes_idem]
  · unfold flag_query got_flag
    have ht : trim_leading_dashes "--verbose" = trim_leading_dashes "verbose" := by
      decide
    rw [ht]

end Argh

